import Mathlib

/-!
# Trait-implementors fragment loaders of the wlc.rs documentation

A shallow embedding of the two generated data files

* `src/implementors/core/ops/trait.Shr.js`
* `src/implementors/std/error/trait.Error.js`

Each file is an immediately-invoked function that builds an object
`implementors` by successive property assignments and then hands it over:
to `window.register_implementors` when that global is truthy, and to the
global `window.pending_implementors` (by plain assignment) otherwise.
-/

namespace WlcDocs

/-! ## Data model -/

/-- One rendered-markup string: an element of an array literal of the files. -/
abbrev ImplementorEntry := String

/-- A JavaScript object with string keys whose values are arrays of strings,
kept as the list of its own properties in enumeration order.  For keys that
are not array indices (every key of the two files) that order is the order
of first insertion. -/
abbrev PackageImplementors := List (String × List ImplementorEntry)

/-- The statement `o[k] = v;`: a property that exists already keeps its place
and gets the new value, a new property goes to the end. -/
def assign : PackageImplementors → String → List ImplementorEntry → PackageImplementors
  | [], k, v => [(k, v)]
  | (k', v') :: rest, k, v =>
    if k' = k then (k', v) :: rest else (k', v') :: assign rest k v

/-- Run a block of statements `implementors[k] = v;` in order, starting from
the object `o`. -/
def assignAll (o : PackageImplementors) (stmts : List (String × List ImplementorEntry)) :
    PackageImplementors :=
  stmts.foldl (fun acc kv => assign acc kv.1 kv.2) o

/-- A function value that may be stored in `window.register_implementors`,
identified by a number.  The function belongs to the page's consumer script;
calling it is recorded in the log and is taken not to touch the two globals
the loaders use. -/
abbrev Intake := Nat

/-- The two globals the loaders read and write.  `none` stands for a property
that is `undefined` (falsy); a function and an object are both truthy.  A
value of `register_implementors` that is truthy and cannot be called is not
represented. -/
structure Window where
  register_implementors : Option Intake
  pending_implementors : Option PackageImplementors
deriving DecidableEq, Repr

/-- What a script does to the outside world, one entry per action. -/
inductive Effect where
  /-- The call `window.register_implementors(arg)` with the function `f` stored there. -/
  | call (f : Intake) (arg : PackageImplementors)
  /-- The assignment `window.pending_implementors = v`. -/
  | writePending (v : PackageImplementors)
  /-- The assignment `window.register_implementors = f`. -/
  | writeRegister (f : Intake)
  /-- The removal of `window.pending_implementors`. -/
  | clearPending
deriving DecidableEq, Repr

/-- A page during one load: the globals and the log of the actions done so far. -/
structure Page where
  window : Window
  log : List Effect
deriving DecidableEq, Repr

/-- A freshly loaded page: neither global is defined, nothing has happened. -/
def Page.fresh : Page :=
  { window := { register_implementors := none, pending_implementors := none }, log := [] }

/-! ## The hand-off block (lines 10–14 of trait.Shr.js, 11–15 of trait.Error.js) -/

/-- The block
```
if (window.register_implementors) {
    window.register_implementors(implementors);
} else {
    window.pending_implementors = implementors;
}
```
which is the same text in both files. -/
def handOff (implementors : PackageImplementors) (s : Page) : Page :=
  match s.window.register_implementors with
  | some f =>
    { s with log := s.log ++ [Effect.call f implementors] }
  | none =>
    { window := { s.window with pending_implementors := some implementors },
      log := s.log ++ [Effect.writePending implementors] }

/-! ## trait.Shr.js -/

/-- Lines 2–8 of trait.Shr.js: the assignments `implementors[k] = v;` in file order. -/
def Shr.assignments : List (String × List ImplementorEntry) :=
  [ ("dlib", []),
    ("lazy_static", []),
    ("libc", []),
    ("libloading", []),
    ("serde", []),
    ("wayland_sys", []),
    ("wlc", []) ]

/-- Lines 1–8 of trait.Shr.js: `var implementors = {};` followed by the assignments. -/
def Shr.implementors : PackageImplementors :=
  assignAll [] Shr.assignments

/-- The whole of trait.Shr.js. -/
def traitShr (s : Page) : Page :=
  handOff Shr.implementors s

/-! ## trait.Error.js -/

/-- The first element of the `log` array (line 6 of trait.Error.js). -/
def Error.implSetLoggerError : ImplementorEntry :=
  "impl <a class='trait' href='https://doc.rust-lang.org/nightly/std/error/trait.Error.html' title='trait std::error::Error'>Error</a> for <a class='struct' href='log/struct.SetLoggerError.html' title='struct log::SetLoggerError'>SetLoggerError</a>"

/-- The second element of the `log` array (line 6 of trait.Error.js). -/
def Error.implShutdownLoggerError : ImplementorEntry :=
  "impl <a class='trait' href='https://doc.rust-lang.org/nightly/std/error/trait.Error.html' title='trait std::error::Error'>Error</a> for <a class='struct' href='log/struct.ShutdownLoggerError.html' title='struct log::ShutdownLoggerError'>ShutdownLoggerError</a>"

/-- The element of the `serde` array (line 7 of trait.Error.js). -/
def Error.implSerdeError : ImplementorEntry :=
  "impl <a class='trait' href='https://doc.rust-lang.org/nightly/std/error/trait.Error.html' title='trait std::error::Error'>Error</a> for <a class='struct' href='serde/de/value/struct.Error.html' title='struct serde::de::value::Error'>Error</a>"

/-- The last element of the `wlc` array (line 9 of trait.Error.js). -/
def Error.implWlcError : ImplementorEntry :=
  "impl <a class='trait' href='https://doc.rust-lang.org/nightly/std/error/trait.Error.html' title='trait std::error::Error'>ErrorTrait</a> for <a class='enum' href='wlc/enum.Error.html' title='enum wlc::Error'>Error</a>"

/-- Lines 2–9 of trait.Error.js: the assignments in file order.  The comma
before a closing `]` of the file adds no element. -/
def Error.assignments : List (String × List ImplementorEntry) :=
  [ ("dlib", []),
    ("lazy_static", []),
    ("libc", []),
    ("libloading", []),
    ("log", [Error.implSetLoggerError, Error.implShutdownLoggerError]),
    ("serde", [Error.implSerdeError]),
    ("wayland_sys", []),
    ("wlc", [Error.implSerdeError, Error.implSetLoggerError,
             Error.implShutdownLoggerError, Error.implWlcError]) ]

/-- Lines 1–9 of trait.Error.js: `var implementors = {};` followed by the assignments. -/
def Error.implementors : PackageImplementors :=
  assignAll [] Error.assignments

/-- The whole of trait.Error.js. -/
def traitError (s : Page) : Page :=
  handOff Error.implementors s

/-! ## Sequences of runs and the consumer -/

/-- Run one loader per payload of `ps`, in list order: each run is the hand-off
block executed on the object its file has built. -/
def runLoaders (ps : List PackageImplementors) (s : Page) : Page :=
  ps.foldl (fun acc p => handOff p acc) s

/-- The payloads reachable under `window.pending_implementors`, as a sequence:
what a consumer that reads the global finds there. -/
def pendingSeq (s : Page) : List PackageImplementors :=
  s.window.pending_implementors.toList

/-- Modelled from the spec: the consumer script that provides the intake function
and attaches it is not among the sources.  `attachConsumer(intakeFn)` "installs
`intakeFn` as `liveIntake`.  Immediately after installation, drains `pending` in
arrival order, invoking `intakeFn` once per buffered payload, then clears
`pending`."  The buffered payloads are those reachable under
`window.pending_implementors`. -/
def attachConsumer (f : Intake) (s : Page) : Page :=
  { window := { register_implementors := some f, pending_implementors := none },
    log := s.log ++ [Effect.writeRegister f] ++ (pendingSeq s).map (Effect.call f)
             ++ [Effect.clearPending] }

/-- The argument of a call of `f`, nothing for any other action. -/
def Effect.deliveryTo (f : Intake) : Effect → Option PackageImplementors
  | Effect.call g arg => if g = f then some arg else none
  | _ => none

/-- The payloads `f` has been called with so far, oldest first. -/
def deliveredTo (f : Intake) (s : Page) : List PackageImplementors :=
  s.log.filterMap (Effect.deliveryTo f)

/-- One page load: the loaders of `pre` run, then the consumer attaches `f`,
then the loaders of `post` run. -/
def pageLoad (pre : List PackageImplementors) (f : Intake) (post : List PackageImplementors) :
    Page :=
  runLoaders post (attachConsumer f (runLoaders pre Page.fresh))

/-! ## Lemmas on the hand-off block -/

theorem handOff_of_live (p : PackageImplementors) (s : Page) (f : Intake)
    (h : s.window.register_implementors = some f) :
    handOff p s = { window := s.window, log := s.log ++ [Effect.call f p] } := by
  simp [handOff, h]

theorem handOff_of_absent (p : PackageImplementors) (s : Page)
    (h : s.window.register_implementors = none) :
    handOff p s =
      { window := { register_implementors := none, pending_implementors := some p },
        log := s.log ++ [Effect.writePending p] } := by
  simp [handOff, h]

theorem handOff_register (p : PackageImplementors) (s : Page) :
    (handOff p s).window.register_implementors = s.window.register_implementors := by
  unfold handOff
  cases h : s.window.register_implementors <;> simp [h]

theorem runLoaders_nil (s : Page) : runLoaders [] s = s := rfl

theorem runLoaders_cons (p : PackageImplementors) (ps : List PackageImplementors) (s : Page) :
    runLoaders (p :: ps) s = runLoaders ps (handOff p s) := rfl

theorem runLoaders_append (ps qs : List PackageImplementors) (s : Page) :
    runLoaders (ps ++ qs) s = runLoaders qs (runLoaders ps s) := by
  simp [runLoaders, List.foldl_append]

theorem runLoaders_of_live (ps : List PackageImplementors) (s : Page) (f : Intake)
    (h : s.window.register_implementors = some f) :
    runLoaders ps s = { window := s.window, log := s.log ++ ps.map (Effect.call f) } := by
  induction ps generalizing s with
  | nil => simp [runLoaders_nil]
  | cons p ps ih =>
    rw [runLoaders_cons, handOff_of_live p s f h]
    rw [ih { window := s.window, log := s.log ++ [Effect.call f p] } h]
    simp

theorem runLoaders_of_absent (ps : List PackageImplementors) (s : Page)
    (h : s.window.register_implementors = none) :
    runLoaders ps s =
      { window := { register_implementors := none,
                    pending_implementors := (pendingSeq s ++ ps).getLast? },
        log := s.log ++ ps.map Effect.writePending } := by
  induction ps generalizing s with
  | nil =>
    obtain ⟨⟨r, q⟩, l⟩ := s
    simp only [] at h
    subst h
    cases q <;> simp [runLoaders_nil, pendingSeq]
  | cons p ps ih =>
    rw [runLoaders_cons, handOff_of_absent p s h, ih _ rfl]
    cases hq : s.window.pending_implementors <;>
      simp [pendingSeq, hq, List.getLast?_cons_cons]

/-! ## The payloads of the two files -/

theorem assign_of_not_mem (o : PackageImplementors) (k : String) (v : List ImplementorEntry)
    (h : k ∉ o.map Prod.fst) : assign o k v = o ++ [(k, v)] := by
  induction o with
  | nil => rfl
  | cons kv rest ih =>
    obtain ⟨k', v'⟩ := kv
    simp only [List.map_cons, List.mem_cons, not_or] at h
    have hne : ¬ k' = k := fun e => h.1 e.symm
    simp [assign, hne, ih h.2]

theorem assignAll_of_nodup (stmts o : PackageImplementors)
    (h : (o ++ stmts).map Prod.fst |>.Nodup) : assignAll o stmts = o ++ stmts := by
  induction stmts generalizing o with
  | nil => simp [assignAll]
  | cons kv rest ih =>
    obtain ⟨k, v⟩ := kv
    have hk : k ∉ o.map Prod.fst := by
      intro hmem
      simp only [List.map_append, List.map_cons] at h
      have := (List.nodup_append.1 h).2.2
      exact this hmem (List.mem_cons_self _ _)
    have step : assignAll o ((k, v) :: rest) = assignAll (assign o k v) rest := rfl
    rw [step, assign_of_not_mem o k v hk]
    have h' : ((o ++ [(k, v)]) ++ rest).map Prod.fst |>.Nodup := by
      simpa [List.append_assoc] using h
    rw [ih _ h']
    simp

theorem shr_keys_nodup : (Shr.assignments.map Prod.fst).Nodup := by
  decide

theorem error_keys_nodup : (Error.assignments.map Prod.fst).Nodup := by
  decide

theorem shr_implementors_eq : Shr.implementors = Shr.assignments := by
  have := assignAll_of_nodup Shr.assignments [] (by simpa using shr_keys_nodup)
  simpa [Shr.implementors] using this

theorem error_implementors_eq : Error.implementors = Error.assignments := by
  have := assignAll_of_nodup Error.assignments [] (by simpa using error_keys_nodup)
  simpa [Error.implementors] using this

/-! ## Properties of one run of a loader -/

/-- C1: in every state where `window.register_implementors` holds a function `f`,
a run of a loader (trait.Shr.js, trait.Error.js, or the hand-off block on any
payload `p`) adds exactly one action to the log, the call of `f` with the
payload of that file, and leaves both globals, `window.pending_implementors`
among them, as they were. -/
theorem live_run_calls_intake_once (s : Page) (f : Intake) (p : PackageImplementors)
    (h : s.window.register_implementors = some f) :
    traitShr s = { window := s.window, log := s.log ++ [Effect.call f Shr.implementors] } ∧
    traitError s = { window := s.window, log := s.log ++ [Effect.call f Error.implementors] } ∧
    handOff p s = { window := s.window, log := s.log ++ [Effect.call f p] } ∧
    deliveredTo f (handOff p s) = deliveredTo f s ++ [p] ∧
    pendingSeq (handOff p s) = pendingSeq s := by
  have hp := handOff_of_live p s f h
  refine ⟨handOff_of_live _ s f h, handOff_of_live _ s f h, hp, ?_, ?_⟩
  · rw [hp]
    simp [deliveredTo, List.filterMap_append, Effect.deliveryTo]
  · rw [hp]
    rfl

/-- C1, on the scenario of the spec: the function 0 is registered and nothing
is pending, then `{"pkgC": ["entry2","entry3"]}` is submitted; the function is
called with it once and nothing is pending afterwards either. -/
theorem live_run_calls_intake_once_witness :
    handOff [("pkgC", ["entry2", "entry3"])]
        { window := { register_implementors := some 0, pending_implementors := none },
          log := [] } =
      { window := { register_implementors := some 0, pending_implementors := none },
        log := [] ++ [Effect.call 0 [("pkgC", ["entry2", "entry3"])]] } ∧
    pendingSeq (handOff [("pkgC", ["entry2", "entry3"])]
        { window := { register_implementors := some 0, pending_implementors := none },
          log := [] }) =
      pendingSeq
        { window := { register_implementors := some 0, pending_implementors := none },
          log := [] } :=
  have t := live_run_calls_intake_once
    { window := { register_implementors := some 0, pending_implementors := none }, log := [] }
    0 [("pkgC", ["entry2", "entry3"])] rfl
  ⟨t.2.2.1, t.2.2.2.2⟩

/-- C2, as stated, fails: after trait.Shr.js has run on a fresh page no intake
is registered and one payload is pending; a run of trait.Error.js then leaves
only its own payload pending, not the earlier one followed by its own. -/
theorem pending_append_counterexample :
    (traitShr Page.fresh).window.register_implementors = none ∧
    pendingSeq (traitShr Page.fresh) = [Shr.implementors] ∧
    pendingSeq (traitError (traitShr Page.fresh)) = [Error.implementors] ∧
    pendingSeq (traitError (traitShr Page.fresh)) ≠
      pendingSeq (traitShr Page.fresh) ++ [Error.implementors] := by
  refine ⟨rfl, rfl, rfl, ?_⟩
  intro h
  have := congrArg List.length h
  simp [pendingSeq, traitShr, traitError, handOff, Page.fresh] at this

/-- C2, amended: in every state where no intake is registered, a run of a loader
does one action, the assignment of its payload to `window.pending_implementors`;
afterwards exactly the new payload is pending, whatever was pending before, and
when nothing was pending before this is the earlier sequence followed by the
new payload. -/
theorem absent_run_replaces_pending (s : Page) (p : PackageImplementors)
    (h : s.window.register_implementors = none) :
    pendingSeq (handOff p s) = [p] ∧
    pendingSeq (traitShr s) = [Shr.implementors] ∧
    pendingSeq (traitError s) = [Error.implementors] ∧
    (handOff p s).log = s.log ++ [Effect.writePending p] ∧
    (pendingSeq s = [] → pendingSeq (handOff p s) = pendingSeq s ++ [p]) := by
  have e : ∀ q, handOff q s = _ := fun q => handOff_of_absent q s h
  refine ⟨by rw [e]; rfl, by rw [traitShr, e]; rfl, by rw [traitError, e]; rfl,
    by rw [e], ?_⟩
  intro h0
  rw [h0, e]
  rfl

/-- C2 amended, at a state with one payload pending: trait.Shr.js has run on a
fresh page and the hand-off block runs on `{"pkgB": []}`. -/
theorem absent_run_replaces_pending_witness :
    (traitShr Page.fresh).window.register_implementors = none ∧
    pendingSeq (handOff [("pkgB", [])] (traitShr Page.fresh)) = [[("pkgB", [])]] ∧
    (handOff [("pkgB", [])] (traitShr Page.fresh)).log =
      (traitShr Page.fresh).log ++ [Effect.writePending [("pkgB", [])]] :=
  have t := absent_run_replaces_pending (traitShr Page.fresh) [("pkgB", [])] rfl
  ⟨rfl, t.1, t.2.2.2.1⟩

/-! ## Properties of the data of the two files -/

/-- C5: the object a loader hands over is the literal data of its file: the
keys in declaration order, each with its array as written, nothing sorted and
nothing dropped.  trait.Error.js hands over 8 keys with 0, 0, 0, 0, 2, 1, 0
and 4 entries, trait.Shr.js 7 keys with no entries, and this object is the
argument of the call when an intake is registered and the value written to
`window.pending_implementors` when none is. -/
theorem content_fidelity :
    Error.implementors = Error.assignments ∧
    Error.implementors.map Prod.fst =
      ["dlib", "lazy_static", "libc", "libloading", "log", "serde", "wayland_sys", "wlc"] ∧
    Error.implementors.map (fun kv => kv.2.length) = [0, 0, 0, 0, 2, 1, 0, 4] ∧
    Error.implementors.lookup "log" =
      some [Error.implSetLoggerError, Error.implShutdownLoggerError] ∧
    Error.implementors.lookup "serde" = some [Error.implSerdeError] ∧
    Error.implementors.lookup "wlc" =
      some [Error.implSerdeError, Error.implSetLoggerError,
            Error.implShutdownLoggerError, Error.implWlcError] ∧
    Shr.implementors =
      [("dlib", []), ("lazy_static", []), ("libc", []), ("libloading", []),
       ("serde", []), ("wayland_sys", []), ("wlc", [])] ∧
    (∀ (f : Intake) (q : Option PackageImplementors) (l : List Effect),
      traitError { window := { register_implementors := some f, pending_implementors := q },
                   log := l } =
        { window := { register_implementors := some f, pending_implementors := q },
          log := l ++ [Effect.call f Error.assignments] } ∧
      traitShr { window := { register_implementors := some f, pending_implementors := q },
                 log := l } =
        { window := { register_implementors := some f, pending_implementors := q },
          log := l ++ [Effect.call f Shr.assignments] }) ∧
    (∀ (q : Option PackageImplementors) (l : List Effect),
      traitError { window := { register_implementors := none, pending_implementors := q },
                   log := l } =
        { window := { register_implementors := none,
                      pending_implementors := some Error.assignments },
          log := l ++ [Effect.writePending Error.assignments] } ∧
      traitShr { window := { register_implementors := none, pending_implementors := q },
                 log := l } =
        { window := { register_implementors := none,
                      pending_implementors := some Shr.assignments },
          log := l ++ [Effect.writePending Shr.assignments] }) := by
  refine ⟨error_implementors_eq, ?_, ?_, ?_, ?_, ?_, ?_, ?_, ?_⟩
  · rw [error_implementors_eq]; rfl
  · rw [error_implementors_eq]; rfl
  · rw [error_implementors_eq]; rfl
  · rw [error_implementors_eq]; rfl
  · rw [error_implementors_eq]; rfl
  · rw [shr_implementors_eq]; rfl
  · intro f q l
    simp [traitError, traitShr, handOff, error_implementors_eq, shr_implementors_eq]
  · intro q l
    simp [traitError, traitShr, handOff, error_implementors_eq, shr_implementors_eq]

/-- C9: in trait.Shr.js and in trait.Error.js no package name is assigned twice;
building the object by successive assignment therefore keeps every assigned
pair, in order, and the payloads have as many keys as the files have
assignments, 7 and 8. -/
theorem package_names_unique :
    (Shr.assignments.map Prod.fst).Nodup ∧
    (Error.assignments.map Prod.fst).Nodup ∧
    Shr.assignments.length = 7 ∧
    Error.assignments.length = 8 ∧
    assignAll [] Shr.assignments = Shr.assignments ∧
    assignAll [] Error.assignments = Error.assignments ∧
    (Shr.implementors.map Prod.fst).Nodup ∧
    (Error.implementors.map Prod.fst).Nodup ∧
    Shr.implementors.length = 7 ∧
    Error.implementors.length = 8 := by
  refine ⟨shr_keys_nodup, error_keys_nodup, rfl, rfl, shr_implementors_eq,
    error_implementors_eq, ?_, ?_, ?_, ?_⟩
  · rw [shr_implementors_eq]; exact shr_keys_nodup
  · rw [error_implementors_eq]; exact error_keys_nodup
  · rw [shr_implementors_eq]; rfl
  · rw [error_implementors_eq]; rfl

/-! ## Lemmas on a whole page load -/

theorem deliveredTo_mk_append (f : Intake) (w : Window) (l l' : List Effect) :
    deliveredTo f { window := w, log := l ++ l' } =
      deliveredTo f { window := w, log := l } ++ deliveredTo f { window := w, log := l' } := by
  simp [deliveredTo, List.filterMap_append]

theorem deliveredTo_calls (f : Intake) (w : Window) (ps : List PackageImplementors) :
    deliveredTo f { window := w, log := ps.map (Effect.call f) } = ps := by
  induction ps with
  | nil => rfl
  | cons p ps ih =>
    simp only [deliveredTo] at ih
    simp [deliveredTo, List.filterMap_cons, Effect.deliveryTo, ih]

theorem deliveredTo_writes (f : Intake) (w : Window) (ps : List PackageImplementors) :
    deliveredTo f { window := w, log := ps.map Effect.writePending } = [] := by
  induction ps with
  | nil => rfl
  | cons p ps ih =>
    simp only [deliveredTo] at ih
    simp [deliveredTo, List.filterMap_cons, Effect.deliveryTo, ih]

theorem pageLoad_eq (pre post : List PackageImplementors) (f : Intake) :
    pageLoad pre f post =
      { window := { register_implementors := some f, pending_implementors := none },
        log := pre.map Effect.writePending ++ [Effect.writeRegister f]
                 ++ pre.getLast?.toList.map (Effect.call f) ++ [Effect.clearPending]
                 ++ post.map (Effect.call f) } := by
  unfold pageLoad
  rw [runLoaders_of_absent pre Page.fresh rfl]
  rw [runLoaders_of_live post _ f rfl]
  simp [attachConsumer, pendingSeq, Page.fresh]

theorem pageLoad_delivered (pre post : List PackageImplementors) (f : Intake) :
    deliveredTo f (pageLoad pre f post) = pre.getLast?.toList ++ post := by
  rw [pageLoad_eq]
  simp only [deliveredTo_mk_append, deliveredTo_calls, deliveredTo_writes]
  simp [deliveredTo, Effect.deliveryTo]

theorem getLast?_toList_sublist {α : Type} (l : List α) : List.Sublist l.getLast?.toList l := by
  induction l with
  | nil => simp
  | cons a l ih =>
    cases l with
    | nil => simp
    | cons b l =>
      rw [List.getLast?_cons_cons]
      exact ih.trans (List.sublist_cons_self _ _)

theorem getLast?_toList_length {α : Type} (l : List α) :
    l.getLast?.toList.length = min l.length 1 := by
  rcases List.eq_nil_or_concat l with rfl | ⟨l', a, rfl⟩
  · rfl
  · simp [List.getLast?_append]

theorem getLast?_toList_of_short {α : Type} (l : List α) (h : l.length ≤ 1) :
    l.getLast?.toList = l := by
  match l, h with
  | [], _ => rfl
  | [a], _ => rfl

/-! ## Properties of a whole page load -/

/-- C3, as stated, fails: trait.Shr.js and trait.Error.js both run on a fresh
page before the consumer attaches the function 0; two payloads were submitted
and the function is called once, with the payload of trait.Error.js only. -/
theorem no_loss_counterexample :
    deliveredTo 0 (pageLoad [Shr.implementors, Error.implementors] 0 []) =
      [Error.implementors] ∧
    (deliveredTo 0 (pageLoad [Shr.implementors, Error.implementors] 0 [])).length ≠
      ([Shr.implementors, Error.implementors] ++ ([] : List PackageImplementors)).length := by
  refine ⟨rfl, ?_⟩
  rw [pageLoad_delivered]
  decide

/-- C3, amended: on a page load where the loaders of `pre` run, then the consumer
attaches `f`, then the loaders of `post` run, `f` is called with the last
payload of `pre`, when there is one, and then with every payload of `post` in
order: `min (length pre) 1 + length post` calls.  When at most one loader runs
before the attach that is every submitted payload once, in order, `N` calls
for `N` runs. -/
theorem no_loss_single_slot (pre post : List PackageImplementors) (f : Intake) :
    deliveredTo f (pageLoad pre f post) = pre.getLast?.toList ++ post ∧
    (deliveredTo f (pageLoad pre f post)).length = min pre.length 1 + post.length ∧
    (pre.length ≤ 1 →
      deliveredTo f (pageLoad pre f post) = pre ++ post ∧
      (deliveredTo f (pageLoad pre f post)).length = (pre ++ post).length) := by
  have e := pageLoad_delivered pre post f
  refine ⟨e, ?_, ?_⟩
  · rw [e, List.length_append, getLast?_toList_length]
  · intro h
    rw [e, getLast?_toList_of_short pre h]
    exact ⟨rfl, rfl⟩

/-- C3 amended, on a page load with trait.Shr.js before the attach and
trait.Error.js, then trait.Shr.js again, after it: three runs, three calls. -/
theorem no_loss_single_slot_witness :
    deliveredTo 7 (pageLoad [Shr.implementors] 7 [Error.implementors, Shr.implementors]) =
      [Shr.implementors] ++ [Error.implementors, Shr.implementors] ∧
    (deliveredTo 7
      (pageLoad [Shr.implementors] 7 [Error.implementors, Shr.implementors])).length =
      ([Shr.implementors] ++ [Error.implementors, Shr.implementors]).length :=
  (no_loss_single_slot [Shr.implementors] [Error.implementors, Shr.implementors] 7).2.2
    (Nat.le_refl 1)

/-- C4, as stated, fails: `{"pkgA": ["entry1"]}` and then `{"pkgB": []}` are
submitted on a fresh page, then the consumer attaches the function 0; the
function is called once, with `{"pkgB": []}`, and never with
`{"pkgA": ["entry1"]}`. -/
theorem order_preservation_counterexample :
    deliveredTo 0 (attachConsumer 0
        (handOff [("pkgB", [])] (handOff [("pkgA", ["entry1"])] Page.fresh))) =
      [[("pkgB", [])]] ∧
    deliveredTo 0 (attachConsumer 0
        (handOff [("pkgB", [])] (handOff [("pkgA", ["entry1"])] Page.fresh))) ≠
      [[("pkgA", ["entry1"])], [("pkgB", [])]] := by
  refine ⟨rfl, ?_⟩
  decide

/-- C4, amended: for every two payloads `p1` and `p2` submitted in that order
while no intake is registered, a following `attachConsumer(f)` calls `f`
once, with `p2` as submitted; `p1` has been replaced in
`window.pending_implementors`, is not delivered and is not merged into `p2`,
also when both name the same package. -/
theorem attach_delivers_last_only (s : Page) (p1 p2 : PackageImplementors) (f : Intake)
    (h : s.window.register_implementors = none) :
    attachConsumer f (handOff p2 (handOff p1 s)) =
      { window := { register_implementors := some f, pending_implementors := none },
        log := s.log ++ [Effect.writePending p1, Effect.writePending p2,
                         Effect.writeRegister f, Effect.call f p2, Effect.clearPending] } ∧
    deliveredTo f (attachConsumer f (handOff p2 (handOff p1 s))) = deliveredTo f s ++ [p2] := by
  have e : attachConsumer f (handOff p2 (handOff p1 s)) =
      { window := { register_implementors := some f, pending_implementors := none },
        log := s.log ++ [Effect.writePending p1, Effect.writePending p2,
                         Effect.writeRegister f, Effect.call f p2, Effect.clearPending] } := by
    rw [handOff_of_absent p1 s h, handOff_of_absent p2 _ rfl]
    simp [attachConsumer, pendingSeq]
  refine ⟨e, ?_⟩
  rw [e]
  simp [deliveredTo, List.filterMap_append, Effect.deliveryTo]

/-- C4 amended, on two payloads that name the same package: `{"pkgA": ["entry1"]}`
and then `{"pkgA": ["entry2"]}` on a fresh page, then the function 0 attached. -/
theorem attach_delivers_last_only_witness :
    Page.fresh.window.register_implementors = none ∧
    deliveredTo 0 (attachConsumer 0
        (handOff [("pkgA", ["entry2"])] (handOff [("pkgA", ["entry1"])] Page.fresh))) =
      deliveredTo 0 Page.fresh ++ [[("pkgA", ["entry2"])]] :=
  ⟨rfl, (attach_delivers_last_only Page.fresh [("pkgA", ["entry1"])]
    [("pkgA", ["entry2"])] 0 rfl).2⟩

/-- C6: every run of a loader adds exactly one action to the log, the call of
the registered intake with its payload when one is registered and the
assignment of its payload to `window.pending_implementors` when none is;
and on every page load with a single `attachConsumer(f)` the payloads `f` is
called with form a subsequence of the submitted ones, so that no submission
is delivered twice: there are no more calls than runs, and payloads that are
pairwise different are delivered at most once each. -/
theorem no_duplication (s : Page) (p : PackageImplementors)
    (pre post : List PackageImplementors) (f : Intake) :
    ((∃ g, s.window.register_implementors = some g ∧
        handOff p s = { window := s.window, log := s.log ++ [Effect.call g p] }) ∨
     (s.window.register_implementors = none ∧
        handOff p s =
          { window := { register_implementors := none, pending_implementors := some p },
            log := s.log ++ [Effect.writePending p] })) ∧
    (handOff p s).log.length = s.log.length + 1 ∧
    List.Sublist (deliveredTo f (pageLoad pre f post)) (pre ++ post) ∧
    (deliveredTo f (pageLoad pre f post)).length ≤ (pre ++ post).length ∧
    ((pre ++ post).Nodup → (deliveredTo f (pageLoad pre f post)).Nodup) := by
  have hlen : (handOff p s).log.length = s.log.length + 1 := by
    unfold handOff
    cases h : s.window.register_implementors <;> simp
  have hsub : List.Sublist (deliveredTo f (pageLoad pre f post)) (pre ++ post) := by
    rw [pageLoad_delivered]
    exact List.Sublist.append (getLast?_toList_sublist pre) (List.Sublist.refl post)
  refine ⟨?_, hlen, hsub, hsub.length_le, fun hn => hn.sublist hsub⟩
  cases h : s.window.register_implementors with
  | none => exact Or.inr ⟨rfl, handOff_of_absent p s h⟩
  | some g => exact Or.inl ⟨g, rfl, handOff_of_live p s g h⟩

/-! ## Properties of the registry the loaders share -/

/-- C7, as stated, fails: trait.Error.js runs on a fresh page and leaves its
payload pending; trait.Shr.js then runs, changes the pending buffer, and the
payload of trait.Error.js is no longer reachable. -/
theorem separate_registries_counterexample :
    pendingSeq (traitError Page.fresh) = [Error.implementors] ∧
    (traitShr (traitError Page.fresh)).window.pending_implementors ≠
      (traitError Page.fresh).window.pending_implementors ∧
    Error.implementors ∉ pendingSeq (traitShr (traitError Page.fresh)) := by
  refine ⟨rfl, ?_, ?_⟩ <;> decide

/-- C7, amended: trait.Shr.js and trait.Error.js read and write the same two
globals, one registry for the page.  Neither writes
`window.register_implementors`.  While an intake is registered neither writes
`window.pending_implementors`, so a payload buffered earlier is still
reachable after either has run.  While none is registered each replaces the
pending buffer by its own payload, whichever loader wrote the earlier one. -/
theorem loaders_share_one_registry (s : Page) :
    (traitShr s).window.register_implementors = s.window.register_implementors ∧
    (traitError s).window.register_implementors = s.window.register_implementors ∧
    (s.window.register_implementors ≠ none →
      (traitShr s).window = s.window ∧ (traitError s).window = s.window) ∧
    (s.window.register_implementors = none →
      (traitShr s).window.pending_implementors = some Shr.implementors ∧
      (traitError s).window.pending_implementors = some Error.implementors ∧
      pendingSeq (traitShr (traitError s)) = [Shr.implementors] ∧
      pendingSeq (traitError (traitShr s)) = [Error.implementors]) := by
  refine ⟨handOff_register _ s, handOff_register _ s, ?_, ?_⟩
  · intro h
    obtain ⟨g, hg⟩ := Option.ne_none_iff_exists'.1 h
    simp [traitShr, traitError, handOff_of_live _ s g hg]
  · intro h
    have e : ∀ q, handOff q s = _ := fun q => handOff_of_absent q s h
    refine ⟨by rw [traitShr, e], by rw [traitError, e], ?_, ?_⟩
    · rw [traitShr, traitError, e, handOff_of_absent _ _ rfl]
      rfl
    · rw [traitShr, traitError, e, handOff_of_absent _ _ rfl]
      rfl

/-- C7 amended, at the page on which trait.Error.js has run with no intake and
at the page on which the function 3 is registered with that payload pending. -/
theorem loaders_share_one_registry_witness :
    pendingSeq (traitShr (traitError Page.fresh)) = [Shr.implementors] ∧
    (traitShr { window := { register_implementors := some 3,
                            pending_implementors := some Error.implementors },
                log := [] }).window =
      { register_implementors := some 3, pending_implementors := some Error.implementors } :=
  ⟨((loaders_share_one_registry Page.fresh).2.2.2 rfl).2.2.1,
   ((loaders_share_one_registry
      { window := { register_implementors := some 3,
                    pending_implementors := some Error.implementors },
        log := [] }).2.2.1 (by simp)).1⟩

/-- C8: no loader writes `window.register_implementors`; from a state where the
intake `f` is registered, after any sequence of loader runs the intake is still
`f`, the pending buffer is what it was, and the log has grown by one call of
`f` per submitted payload, in order, and by nothing else. -/
theorem live_intake_stable (s : Page) (f : Intake) (ps : List PackageImplementors)
    (h : s.window.register_implementors = some f) :
    (∀ (p : PackageImplementors) (t : Page),
      (handOff p t).window.register_implementors = t.window.register_implementors) ∧
    (runLoaders ps s).window.register_implementors = some f ∧
    (runLoaders ps s).window.pending_implementors = s.window.pending_implementors ∧
    (runLoaders ps s).log = s.log ++ ps.map (Effect.call f) ∧
    deliveredTo f (runLoaders ps s) = deliveredTo f s ++ ps ∧
    (∀ v, Effect.writePending v ∉ ps.map (Effect.call f)) := by
  have e := runLoaders_of_live ps s f h
  refine ⟨handOff_register, by rw [e]; exact h, by rw [e], by rw [e], ?_, ?_⟩
  · rw [e, deliveredTo_mk_append, deliveredTo_calls]
  · intro v hv
    simp at hv

/-- C8, at a page where the function 5 is registered and nothing is pending,
followed by runs of trait.Shr.js and trait.Error.js. -/
theorem live_intake_stable_witness :
    (runLoaders [Shr.implementors, Error.implementors]
      { window := { register_implementors := some 5, pending_implementors := none },
        log := [] }).window.register_implementors = some 5 ∧
    (runLoaders [Shr.implementors, Error.implementors]
      { window := { register_implementors := some 5, pending_implementors := none },
        log := [] }).window.pending_implementors = none ∧
    (runLoaders [Shr.implementors, Error.implementors]
      { window := { register_implementors := some 5, pending_implementors := none },
        log := [] }).log =
      [] ++ [Shr.implementors, Error.implementors].map (Effect.call 5) :=
  have t := live_intake_stable
    { window := { register_implementors := some 5, pending_implementors := none }, log := [] }
    5 [Shr.implementors, Error.implementors] rfl
  ⟨t.2.1, t.2.2.1, t.2.2.2.1⟩

/-- C10: for every non-empty sequence of loader runs executed while no intake is
registered, `window.pending_implementors` ends as the payload of the last
loader of the sequence, whatever ran before and whatever was pending before,
and the intake is still absent; running the same loader twice leaves the
globals as running it once does. -/
theorem last_writer_wins (s : Page) (ps : List PackageImplementors)
    (h : s.window.register_implementors = none) (hne : ps ≠ []) :
    (runLoaders ps s).window =
      { register_implementors := none, pending_implementors := some (ps.getLast hne) } ∧
    (∀ (t : Page) (qs : List PackageImplementors),
      t.window.register_implementors = none →
        (runLoaders (qs ++ [ps.getLast hne]) t).window = (runLoaders ps s).window) ∧
    (∀ p, (handOff p (handOff p s)).window = (handOff p s).window) ∧
    (traitShr (traitShr s)).window = (traitShr s).window ∧
    (traitError (traitError s)).window = (traitError s).window := by
  have last : ∀ (t : Page) (qs : List PackageImplementors) (hq : qs ≠ []),
      t.window.register_implementors = none →
      (runLoaders qs t).window =
        { register_implementors := none, pending_implementors := some (qs.getLast hq) } := by
    intro t qs hq ht
    rw [runLoaders_of_absent qs t ht, List.getLast?_append_of_ne_nil _ hq,
      List.getLast?_eq_getLast _ hq]
  have twice : ∀ p, (handOff p (handOff p s)).window = (handOff p s).window := by
    intro p
    rw [handOff_of_absent p s h, handOff_of_absent p _ rfl]
  refine ⟨last s ps hne h, ?_, twice, twice _, twice _⟩
  intro t qs ht
  rw [last s ps hne h, last t (qs ++ [ps.getLast hne]) (by simp) ht]
  simp

/-- C10, on the runs trait.Shr.js, trait.Error.js on a fresh page: the payload of
trait.Error.js is what is pending. -/
theorem last_writer_wins_witness :
    Page.fresh.window.register_implementors = none ∧
    (runLoaders [Shr.implementors, Error.implementors] Page.fresh).window =
      { register_implementors := none, pending_implementors := some Error.implementors } ∧
    (traitError (traitError Page.fresh)).window = (traitError Page.fresh).window :=
  have t := last_writer_wins Page.fresh [Shr.implementors, Error.implementors] rfl
    (List.cons_ne_nil _ _)
  ⟨rfl, t.1, t.2.2.2.2⟩

end WlcDocs
